import Mathlib

/-!
Verification of a CHIP-8 emulator core (chip8.cpp): machine state, opcode
execution semantics, the two-level decode/dispatch structure, and the
fetch-decode-execute cycle, shallowly embedded over natural numbers.

Machine integers are modelled as Nat with explicit truncation at every store
that the source performs through a fixed-width C++ type: stores into the
uint8_t register/memory/timer arrays truncate modulo 256, stores into the
uint16_t index/pc/stack fields truncate modulo 65536, and stores into the
uint32_t video array truncate modulo 2^32.

Array accesses in the source are over fixed-size C++ arrays with no bounds
checking; an access outside the array is undefined behaviour.  Operations
whose array subscripts can leave the array are therefore embedded as
functions into Option: the `none` result marks exactly the executions in
which the source indexes past the end of an array.
-/

/-- Machine state of the emulator, mirroring the fields of class Chip8.
The field rand models the byte produced by randByte(randGen) for the
current instruction; the source draws it from a seeded PRNG, which is
external nondeterminism as far as instruction semantics are concerned. -/
structure Chip8 where
  registers : Nat → Nat
  memory : Nat → Nat
  index : Nat
  pc : Nat
  stack : Nat → Nat
  sp : Nat
  delayTimer : Nat
  soundTimer : Nat
  keypad : Nat → Nat
  video : Nat → Nat
  opcode : Nat
  rand : Nat

/-- Store into the uint8_t registers array: truncates the value modulo 256. -/
def updReg (r : Nat → Nat) (i v : Nat) : Nat → Nat :=
  fun j => if j = i then v % 256 else r j

/-- Store into the uint8_t memory array: truncates the value modulo 256. -/
def updMem (m : Nat → Nat) (a v : Nat) : Nat → Nat :=
  fun b => if b = a then v % 256 else m b

/-- Store into the uint16_t stack array: truncates the value modulo 65536. -/
def updStack (st : Nat → Nat) (i v : Nat) : Nat → Nat :=
  fun j => if j = i then v % 65536 else st j

/-- Store into the uint32_t video array: truncates the value modulo 2^32. -/
def updVideo (v : Nat → Nat) (i x : Nat) : Nat → Nat :=
  fun j => if j = i then x % 4294967296 else v j

/-- OP_00E0: clear the display (memset of the video array to 0). -/
def OP_00E0 (s : Chip8) : Chip8 :=
  { s with video := fun _ => 0 }

/-- OP_00EE: return from a subroutine.  The uint8_t stack pointer is
decremented (wrapping at 0), then stack[sp] is read; the stack array has 16
entries, so a wrapped or out-of-range pointer is an out-of-bounds read. -/
def OP_00EE (s : Chip8) : Option Chip8 :=
  let sp2 := (s.sp + 255) % 256
  if sp2 < 16 then some { s with sp := sp2, pc := s.stack sp2 % 65536 } else none

/-- OP_1nnn: jump to location nnn. -/
def OP_1nnn (s : Chip8) : Chip8 :=
  let address := s.opcode &&& 0x0FFF
  { s with pc := address % 65536 }

/-- OP_2nnn: call subroutine at nnn; stack[sp] is written, so sp must be in
bounds of the 16-entry stack array. -/
def OP_2nnn (s : Chip8) : Option Chip8 :=
  let address := s.opcode &&& 0x0FFF
  if s.sp < 16 then
    some { s with stack := updStack s.stack s.sp s.pc,
                  sp := (s.sp + 1) % 256,
                  pc := address % 65536 }
  else none

/-- OP_3xkk: skip next instruction if Vx = kk. -/
def OP_3xkk (s : Chip8) : Chip8 :=
  let Vx := (s.opcode &&& 0x0F00) >>> 8
  let byte := s.opcode &&& 0x00FF
  if s.registers Vx = byte then { s with pc := (s.pc + 2) % 65536 } else s

/-- OP_4xkk: skip next instruction if Vx is not kk. -/
def OP_4xkk (s : Chip8) : Chip8 :=
  let Vx := (s.opcode &&& 0x0F00) >>> 8
  let byte := s.opcode &&& 0x00FF
  if s.registers Vx ≠ byte then { s with pc := (s.pc + 2) % 65536 } else s

/-- OP_5xy0: skip next instruction if Vx = Vy. -/
def OP_5xy0 (s : Chip8) : Chip8 :=
  let Vx := (s.opcode &&& 0x0F00) >>> 8
  let Vy := (s.opcode &&& 0x00F0) >>> 4
  if s.registers Vx = s.registers Vy then { s with pc := (s.pc + 2) % 65536 } else s

/-- OP_6xkk: set Vx = kk. -/
def OP_6xkk (s : Chip8) : Chip8 :=
  let Vx := (s.opcode &&& 0x0F00) >>> 8
  let byte := s.opcode &&& 0x00FF
  { s with registers := updReg s.registers Vx byte }

/-- OP_7xkk: set Vx = Vx + kk (uint8_t wrap, no flag). -/
def OP_7xkk (s : Chip8) : Chip8 :=
  let Vx := (s.opcode &&& 0x0F00) >>> 8
  let byte := s.opcode &&& 0x00FF
  { s with registers := updReg s.registers Vx (s.registers Vx + byte) }

/-- OP_8xy0: set Vx = Vy. -/
def OP_8xy0 (s : Chip8) : Chip8 :=
  let Vx := (s.opcode &&& 0x0F00) >>> 8
  let Vy := (s.opcode &&& 0x00F0) >>> 4
  { s with registers := updReg s.registers Vx (s.registers Vy) }

/-- OP_8xy1: set Vx = Vx OR Vy. -/
def OP_8xy1 (s : Chip8) : Chip8 :=
  let Vx := (s.opcode &&& 0x0F00) >>> 8
  let Vy := (s.opcode &&& 0x00F0) >>> 4
  { s with registers := updReg s.registers Vx (s.registers Vx ||| s.registers Vy) }

/-- OP_8xy2: set Vx = Vx AND Vy. -/
def OP_8xy2 (s : Chip8) : Chip8 :=
  let Vx := (s.opcode &&& 0x0F00) >>> 8
  let Vy := (s.opcode &&& 0x00F0) >>> 4
  { s with registers := updReg s.registers Vx (s.registers Vx &&& s.registers Vy) }

/-- OP_8xy3: set Vx = Vx XOR Vy. -/
def OP_8xy3 (s : Chip8) : Chip8 :=
  let Vx := (s.opcode &&& 0x0F00) >>> 8
  let Vy := (s.opcode &&& 0x00F0) >>> 4
  { s with registers := updReg s.registers Vx (Nat.xor (s.registers Vx) (s.registers Vy)) }

/-- OP_8xy4: set Vx = Vx + Vy, set VF = carry.  The 16-bit sum is computed
from the pre-state, then VF is written, then Vx is written; when Vx is
register 15 the second write lands on the register just used for the flag. -/
def OP_8xy4 (s : Chip8) : Chip8 :=
  let Vx := (s.opcode &&& 0x0F00) >>> 8
  let Vy := (s.opcode &&& 0x00F0) >>> 4
  let sum := (s.registers Vx + s.registers Vy) % 65536
  let r1 := updReg s.registers 0xF (if sum > 255 then 1 else 0)
  { s with registers := updReg r1 Vx (sum &&& 0xFF) }

/-- OP_8xy5: set Vx = Vx - Vy, set VF = NOT borrow.  The flag is written
first; the subtraction then reads the registers array after that write.
The uint8_t subtraction wraps modulo 256 (operands are byte-valued). -/
def OP_8xy5 (s : Chip8) : Chip8 :=
  let Vx := (s.opcode &&& 0x0F00) >>> 8
  let Vy := (s.opcode &&& 0x00F0) >>> 4
  let r1 := updReg s.registers 0xF (if s.registers Vx > s.registers Vy then 1 else 0)
  { s with registers := updReg r1 Vx ((r1 Vx + 256 - r1 Vy % 256) % 256) }

/-- OP_8xy6: set VF to the low bit of Vx, then shift Vx right by one.  The
shift reads the registers array after the flag write. -/
def OP_8xy6 (s : Chip8) : Chip8 :=
  let Vx := (s.opcode &&& 0x0F00) >>> 8
  let r1 := updReg s.registers 0xF (s.registers Vx &&& 0x1)
  { s with registers := updReg r1 Vx (r1 Vx >>> 1) }

/-- OP_8xy7: set Vx = Vy - Vx, set VF = NOT borrow; flag written first. -/
def OP_8xy7 (s : Chip8) : Chip8 :=
  let Vx := (s.opcode &&& 0x0F00) >>> 8
  let Vy := (s.opcode &&& 0x00F0) >>> 4
  let r1 := updReg s.registers 0xF (if s.registers Vy > s.registers Vx then 1 else 0)
  { s with registers := updReg r1 Vx ((r1 Vy + 256 - r1 Vx % 256) % 256) }

/-- OP_8xyE: set VF to the high bit of Vx, then shift Vx left by one (the
uint8_t store truncates modulo 256).  The shift reads the registers array
after the flag write. -/
def OP_8xyE (s : Chip8) : Chip8 :=
  let Vx := (s.opcode &&& 0x0F00) >>> 8
  let r1 := updReg s.registers 0xF ((s.registers Vx &&& 0x80) >>> 7)
  { s with registers := updReg r1 Vx (r1 Vx <<< 1) }

/-- OP_9xy0: skip next instruction if Vx is not Vy. -/
def OP_9xy0 (s : Chip8) : Chip8 :=
  let Vx := (s.opcode &&& 0x0F00) >>> 8
  let Vy := (s.opcode &&& 0x00F0) >>> 4
  if s.registers Vx ≠ s.registers Vy then { s with pc := (s.pc + 2) % 65536 } else s

/-- OP_Annn: set index = nnn.  The source declares the local holding the
extracted address as uint8_t (unlike the uint16_t used by the other nnn
instructions), so the 12-bit field is truncated modulo 256 before it
reaches the index register. -/
def OP_Annn (s : Chip8) : Chip8 :=
  let address := (s.opcode &&& 0x0FFF) % 256
  { s with index := address % 65536 }

/-- OP_Bnnn: jump to location nnn + V0.  No mask is applied to the sum;
only the uint16_t store truncates it. -/
def OP_Bnnn (s : Chip8) : Chip8 :=
  let address := s.opcode &&& 0x0FFF
  { s with pc := (s.registers 0 + address) % 65536 }

/-- OP_Cxkk: set Vx = random byte AND kk. -/
def OP_Cxkk (s : Chip8) : Chip8 :=
  let Vx := (s.opcode &&& 0x0F00) >>> 8
  let byte := s.opcode &&& 0x00FF
  { s with registers := updReg s.registers Vx (s.rand &&& byte) }

/-- One column of the sprite draw: tests the sprite bit for this column and,
if set, checks collision against the video pixel and XOR-toggles it.  The
linear pixel index is computed exactly as in the source, with no wrap past
the start-coordinate wrap; an index outside the 2048-entry video array is
an out-of-bounds access. -/
def dxynPixel (s : Chip8) (spriteByte xPos yPos row col : Nat) : Option Chip8 :=
  let spritePixel := spriteByte &&& (0x80 >>> col)
  let idx := (yPos + row) * 64 + (xPos + col)
  if spritePixel ≠ 0 then
    if idx < 2048 then
      let s1 := if s.video idx = 0xFFFFFFFF
                then { s with registers := updReg s.registers 0xF 1 }
                else s
      some { s1 with video := updVideo s1.video idx (Nat.xor (s1.video idx) 0xFFFFFFFF) }
    else none
  else some s

/-- Columns 0 up to n-1 of one sprite row, in source order. -/
def dxynCols (spriteByte xPos yPos row : Nat) (s : Chip8) : Nat → Option Chip8
  | 0 => some s
  | n + 1 => (dxynCols spriteByte xPos yPos row s n).bind
      fun t => dxynPixel t spriteByte xPos yPos row n

/-- Rows 0 up to n-1 of the sprite, in source order; each row reads the
sprite byte at memory[index + row], which must lie in the 4096-byte
memory array. -/
def dxynRows (xPos yPos : Nat) (s : Chip8) : Nat → Option Chip8
  | 0 => some s
  | n + 1 => (dxynRows xPos yPos s n).bind
      fun t =>
        if t.index + n < 4096 then
          dxynCols (t.memory (t.index + n)) xPos yPos n t 8
        else none

/-- OP_Dxyn: draw an n-byte sprite at (Vx, Vy), set VF = collision.  Only
the start coordinates are wrapped (mod 64 and mod 32); the per-pixel index
is not wrapped. -/
def OP_Dxyn (s : Chip8) : Option Chip8 :=
  let Vx := (s.opcode &&& 0x0F00) >>> 8
  let Vy := (s.opcode &&& 0x00F0) >>> 4
  let height := s.opcode &&& 0x000F
  let xPos := s.registers Vx % 64
  let yPos := s.registers Vy % 32
  dxynRows xPos yPos { s with registers := updReg s.registers 0xF 0 } height

/-- OP_Ex9E: skip next instruction if the key numbered Vx is pressed.  The
keypad array has 16 entries and is indexed directly with the byte in Vx. -/
def OP_Ex9E (s : Chip8) : Option Chip8 :=
  let Vx := (s.opcode &&& 0x0F00) >>> 8
  let key := s.registers Vx
  if key < 16 then
    some (if s.keypad key ≠ 0 then { s with pc := (s.pc + 2) % 65536 } else s)
  else none

/-- OP_ExA1: skip next instruction if the key numbered Vx is not pressed. -/
def OP_ExA1 (s : Chip8) : Option Chip8 :=
  let Vx := (s.opcode &&& 0x0F00) >>> 8
  let key := s.registers Vx
  if key < 16 then
    some (if s.keypad key = 0 then { s with pc := (s.pc + 2) % 65536 } else s)
  else none

/-- OP_Fx07: set Vx = delay timer value. -/
def OP_Fx07 (s : Chip8) : Chip8 :=
  let Vx := (s.opcode &&& 0x0F00) >>> 8
  { s with registers := updReg s.registers Vx s.delayTimer }

/-- The wait-key scan over keys 0 up to n-1, in source order: every pressed
key writes its own number into Vx (later iterations overwrite earlier
ones), and the flag records whether any key was pressed. -/
def fx0aLoop (s : Chip8) (Vx : Nat) : Nat → (Nat → Nat) × Bool
  | 0 => (s.registers, false)
  | n + 1 =>
    let p := fx0aLoop s Vx n
    if s.keypad n ≠ 0 then (updReg p.1 Vx n, true) else p

/-- OP_Fx0A: wait for a key press.  Scans all 16 keys; if none is pressed
the program counter is rewound by 2 (uint16_t wrap) so the instruction
re-executes on the next cycle. -/
def OP_Fx0A (s : Chip8) : Chip8 :=
  let Vx := (s.opcode &&& 0x0F00) >>> 8
  let p := fx0aLoop s Vx 16
  if p.2 then { s with registers := p.1 }
  else { s with registers := p.1, pc := (s.pc + 65534) % 65536 }

/-- OP_Fx15: set delay timer = Vx. -/
def OP_Fx15 (s : Chip8) : Chip8 :=
  let Vx := (s.opcode &&& 0x0F00) >>> 8
  { s with delayTimer := s.registers Vx % 256 }

/-- OP_Fx18: set sound timer = Vx. -/
def OP_Fx18 (s : Chip8) : Chip8 :=
  let Vx := (s.opcode &&& 0x0F00) >>> 8
  { s with soundTimer := s.registers Vx % 256 }

/-- OP_Fx1E: set index = index + Vx (uint16_t wrap, no mask, no flag). -/
def OP_Fx1E (s : Chip8) : Chip8 :=
  let Vx := (s.opcode &&& 0x0F00) >>> 8
  { s with index := (s.index + s.registers Vx) % 65536 }

/-- OP_Fx29: set index to the font-zone address of the glyph for digit Vx. -/
def OP_Fx29 (s : Chip8) : Chip8 :=
  let Vx := (s.opcode &&& 0x0F00) >>> 8
  { s with index := (0x50 + 5 * s.registers Vx) % 65536 }

/-- OP_Fx33: store the BCD digits of Vx at memory[index], memory[index+1]
and memory[index+2].  The source writes the ones place at index+2 first,
so the first (and widest) array subscript is index+2. -/
def OP_Fx33 (s : Chip8) : Option Chip8 :=
  let Vx := (s.opcode &&& 0x0F00) >>> 8
  let value := s.registers Vx
  if s.index + 2 < 4096 then
    let m1 := updMem s.memory (s.index + 2) (value % 10)
    let m2 := updMem m1 (s.index + 1) (value / 10 % 10)
    some { s with memory := updMem m2 s.index (value / 10 / 10 % 10) }
  else none

/-- The store-registers copy loop for i in 0 up to n-1: writes register i to
memory[index + i], failing on a subscript outside the memory array. -/
def fx55Loop (s : Chip8) : Nat → Option (Nat → Nat)
  | 0 => some s.memory
  | n + 1 => (fx55Loop s n).bind fun m =>
      if s.index + n < 4096 then some (updMem m (s.index + n) (s.registers n)) else none

/-- OP_Fx55: store registers V0 through Vx in memory starting at index.
The index register itself is not advanced. -/
def OP_Fx55 (s : Chip8) : Option Chip8 :=
  let Vx := (s.opcode &&& 0x0F00) >>> 8
  (fx55Loop s (Vx + 1)).map fun m => { s with memory := m }

/-- The load-registers copy loop for i in 0 up to n-1: reads
memory[index + i] into register i, failing on a subscript outside the
memory array. -/
def fx65Loop (s : Chip8) : Nat → Option (Nat → Nat)
  | 0 => some s.registers
  | n + 1 => (fx65Loop s n).bind fun r =>
      if s.index + n < 4096 then some (updReg r n (s.memory (s.index + n))) else none

/-- OP_Fx65: read registers V0 through Vx from memory starting at index.
The index register itself is not advanced. -/
def OP_Fx65 (s : Chip8) : Option Chip8 :=
  let Vx := (s.opcode &&& 0x0F00) >>> 8
  (fx65Loop s (Vx + 1)).map fun r => { s with registers := r }

/-- OP_NULL: the do-nothing handler installed in the unused slots of the
sub-dispatch tables. -/
def OP_NULL (s : Chip8) : Chip8 := s

/-- Names of the 35 execution rules reachable from the dispatch tables. -/
inductive Handler where
  | h00E0 | h00EE | h1nnn | h2nnn | h3xkk | h4xkk | h5xy0 | h6xkk | h7xkk
  | h8xy0 | h8xy1 | h8xy2 | h8xy3 | h8xy4 | h8xy5 | h8xy6 | h8xy7 | h8xyE
  | h9xy0 | hAnnn | hBnnn | hCxkk | hDxyn | hEx9E | hExA1
  | hFx07 | hFx0A | hFx15 | hFx18 | hFx1E | hFx29 | hFx33 | hFx55 | hFx65
  | hNULL
deriving DecidableEq

/-- Sub-dispatch for family 0x0: the table0 array has 0xE + 1 = 15 entries,
entries 0x0 and 0xE hold handlers and the rest hold OP_NULL; a subscript
above 0xE is past the end of the array. -/
def table0 (i : Nat) : Option Handler :=
  if i ≤ 0xE then
    some (if i = 0x0 then .h00E0 else if i = 0xE then .h00EE else .hNULL)
  else none

/-- Sub-dispatch for family 0x8: the table8 array has 0xE + 1 = 15 entries,
with the nine ALU handlers at 0x0 - 0x7 and 0xE and OP_NULL elsewhere; a
subscript above 0xE is past the end of the array. -/
def table8 (i : Nat) : Option Handler :=
  if i ≤ 0xE then
    some (if i = 0x0 then .h8xy0 else if i = 0x1 then .h8xy1
     else if i = 0x2 then .h8xy2 else if i = 0x3 then .h8xy3
     else if i = 0x4 then .h8xy4 else if i = 0x5 then .h8xy5
     else if i = 0x6 then .h8xy6 else if i = 0x7 then .h8xy7
     else if i = 0xE then .h8xyE else .hNULL)
  else none

/-- Sub-dispatch for family 0xE: the tableE array has 0xE + 1 = 15 entries,
with the two key tests at 0x1 and 0xE; a subscript above 0xE is past the
end of the array. -/
def tableE (i : Nat) : Option Handler :=
  if i ≤ 0xE then
    some (if i = 0x1 then .hExA1 else if i = 0xE then .hEx9E else .hNULL)
  else none

/-- Sub-dispatch for family 0xF: the tableF array has 0x65 + 1 entries,
indexed by the full low byte of the opcode; a subscript above 0x65 is past
the end of the array. -/
def tableF (i : Nat) : Option Handler :=
  if i ≤ 0x65 then
    some (if i = 0x07 then .hFx07 else if i = 0x0A then .hFx0A
     else if i = 0x15 then .hFx15 else if i = 0x18 then .hFx18
     else if i = 0x1E then .hFx1E else if i = 0x29 then .hFx29
     else if i = 0x33 then .hFx33 else if i = 0x55 then .hFx55
     else if i = 0x65 then .hFx65 else .hNULL)
  else none

/-- Top-level decode: the outer table is indexed by the top 4 bits of the
opcode and all 16 entries are assigned, so the outer lookup is always in
bounds; families 0x0, 0x8, 0xE index their sub-table with the low nibble
and family 0xF indexes its sub-table with the low byte. -/
def decode (op : Nat) : Option Handler :=
  match (op &&& 0xF000) >>> 12 with
  | 0x0 => table0 (op &&& 0x000F)
  | 0x1 => some .h1nnn
  | 0x2 => some .h2nnn
  | 0x3 => some .h3xkk
  | 0x4 => some .h4xkk
  | 0x5 => some .h5xy0
  | 0x6 => some .h6xkk
  | 0x7 => some .h7xkk
  | 0x8 => table8 (op &&& 0x000F)
  | 0x9 => some .h9xy0
  | 0xA => some .hAnnn
  | 0xB => some .hBnnn
  | 0xC => some .hCxkk
  | 0xD => some .hDxyn
  | 0xE => tableE (op &&& 0x000F)
  | _ => tableF (op &&& 0x00FF)

/-- Run the handler selected by decode on the state. -/
def execute (h : Handler) (s : Chip8) : Option Chip8 :=
  match h with
  | .h00E0 => some (OP_00E0 s)
  | .h00EE => OP_00EE s
  | .h1nnn => some (OP_1nnn s)
  | .h2nnn => OP_2nnn s
  | .h3xkk => some (OP_3xkk s)
  | .h4xkk => some (OP_4xkk s)
  | .h5xy0 => some (OP_5xy0 s)
  | .h6xkk => some (OP_6xkk s)
  | .h7xkk => some (OP_7xkk s)
  | .h8xy0 => some (OP_8xy0 s)
  | .h8xy1 => some (OP_8xy1 s)
  | .h8xy2 => some (OP_8xy2 s)
  | .h8xy3 => some (OP_8xy3 s)
  | .h8xy4 => some (OP_8xy4 s)
  | .h8xy5 => some (OP_8xy5 s)
  | .h8xy6 => some (OP_8xy6 s)
  | .h8xy7 => some (OP_8xy7 s)
  | .h8xyE => some (OP_8xyE s)
  | .h9xy0 => some (OP_9xy0 s)
  | .hAnnn => some (OP_Annn s)
  | .hBnnn => some (OP_Bnnn s)
  | .hCxkk => some (OP_Cxkk s)
  | .hDxyn => OP_Dxyn s
  | .hEx9E => OP_Ex9E s
  | .hExA1 => OP_ExA1 s
  | .hFx07 => some (OP_Fx07 s)
  | .hFx0A => some (OP_Fx0A s)
  | .hFx15 => some (OP_Fx15 s)
  | .hFx18 => some (OP_Fx18 s)
  | .hFx1E => some (OP_Fx1E s)
  | .hFx29 => some (OP_Fx29 s)
  | .hFx33 => OP_Fx33 s
  | .hFx55 => OP_Fx55 s
  | .hFx65 => OP_Fx65 s
  | .hNULL => some s

/-- The end-of-cycle timer update: each timer is decremented when it is
strictly positive. -/
def tick (s : Chip8) : Chip8 :=
  let s1 := if s.delayTimer > 0 then { s with delayTimer := s.delayTimer - 1 } else s
  if s1.soundTimer > 0 then { s1 with soundTimer := s1.soundTimer - 1 } else s1

/-- One fetch-decode-execute-timer cycle: fetch the big-endian word at
[pc, pc + 1] (both bytes must lie in the 4096-byte memory array), advance
pc by 2 before executing, dispatch, then tick the timers. -/
def Chip8.Cycle (s : Chip8) : Option Chip8 :=
  if s.pc + 1 < 4096 then
    let op := ((s.memory s.pc <<< 8) ||| s.memory (s.pc + 1)) % 65536
    let s1 := { s with opcode := op, pc := (s.pc + 2) % 65536 }
    ((decode op).bind fun h => execute h s1).map tick
  else none

/-- All-zero machine state with pc at the entry address, the base for the
concrete states used in the witnesses and counterexamples. -/
def zeroChip : Chip8 :=
  { registers := fun _ => 0, memory := fun _ => 0, index := 0, pc := 0x200,
    stack := fun _ => 0, sp := 0, delayTimer := 0, soundTimer := 0,
    keypad := fun _ => 0, video := fun _ => 0, opcode := 0, rand := 0 }

/-- State about to draw an 8 by 1 sprite of all-on pixels at the
bottom-right corner x = 63, y = 31. -/
def X2 : Chip8 := { zeroChip with
  opcode := 0xD011,
  registers := fun i => if i = 0 then 63 else if i = 1 then 31 else 0,
  index := 0x300,
  memory := fun a => if a = 0x300 then 0xFF else 0 }

/-- State whose next instruction is wait-key into V0, with keys 2 and 5
both pressed. -/
def X4 : Chip8 := { zeroChip with
  memory := fun a => if a = 0x200 then 0xF0 else if a = 0x201 then 0x0A else 0,
  keypad := fun i => if i = 2 then 1 else if i = 5 then 1 else 0 }

/-- State whose next instruction is wait-key into V3, with only key 5
pressed. -/
def W4 : Chip8 := { zeroChip with
  memory := fun a => if a = 0x200 then 0xF3 else if a = 0x201 then 0x0A else 0,
  keypad := fun i => if i = 5 then 1 else 0 }

/-- State executing jump-offset 0xBFFF with V0 = 0xFF, the extreme case of
the unmasked pc assignment. -/
def X5 : Chip8 := { zeroChip with
  opcode := 0xBFFF,
  registers := fun _ => 0xFF }

/-- State executing jump-offset 0xB123 from a zeroed register file. -/
def W5 : Chip8 := { zeroChip with opcode := 0xB123 }

/-- State executing shift-right with x = 15 and V15 = 3. -/
def X6 : Chip8 := { zeroChip with
  opcode := 0x8F06,
  registers := fun _ => 3 }

/-- State executing shift instructions with x = 2 and every register 7. -/
def W6 : Chip8 := { zeroChip with
  opcode := 0x8246,
  registers := fun _ => 7 }

/-- State executing add-reg with x = 15, y = 0, V15 = 200, V0 = 100. -/
def X7 : Chip8 := { zeroChip with
  opcode := 0x8F04,
  registers := fun i => if i = 15 then 200 else 100 }

/-- State executing add-reg with x = 1, y = 2 and every register 100. -/
def W7 : Chip8 := { zeroChip with
  opcode := 0x8124,
  registers := fun _ => 100 }

/-- State executing store-registers and load-registers with x = 3. -/
def W8 : Chip8 := { zeroChip with
  opcode := 0xF355,
  index := 0x300,
  registers := fun i => if i = 0 then 7 else if i = 1 then 200 else 3 }

/-- State executing store-bcd with V0 = 137. -/
def W9 : Chip8 := { zeroChip with
  opcode := 0xF033,
  index := 0x400,
  registers := fun _ => 137 }

/-- State executing the register-block transfers with x = 0. -/
def W10 : Chip8 := { zeroChip with opcode := 0xF055 }

/-- Result of store-registers on W10. -/
def T55 : Chip8 := { W10 with memory := updMem W10.memory 0 (W10.registers 0) }

/-- Result of load-registers on W10. -/
def T65 : Chip8 := { W10 with registers := updReg W10.registers 0 (W10.memory 0) }

/-- Zero the registers 0 through x of a state, leaving the rest alone; this
models the fresh register file of the round-trip property. -/
def zeroRegsThrough (x : Nat) (t : Chip8) : Chip8 :=
  { t with registers := fun i => if i ≤ x then 0 else t.registers i }

/-- Masking with 1 is reduction modulo 2. -/
theorem and_one_eq_mod (n : Nat) : n &&& 1 = n % 2 := Nat.and_one_is_mod n

/-- Masking with 0xFF is reduction modulo 256. -/
theorem and_255_eq_mod (n : Nat) : n &&& 255 = n % 256 := by
  have h := Nat.and_pow_two_sub_one_eq_mod n 8
  norm_num at h
  exact h

/-- Right shift by one is division by two. -/
theorem shiftRight_one_eq_div (n : Nat) : n >>> 1 = n / 2 := by
  have h := Nat.shiftRight_eq_div_pow n 1
  simpa using h

/-- Left shift by one is multiplication by two. -/
theorem shiftLeft_one_eq_mul (n : Nat) : n <<< 1 = n * 2 := by
  have h := Nat.shiftLeft_eq n 1
  simpa using h

set_option maxRecDepth 4096 in
/-- For byte values, isolating and aligning bit 7 computes division by 128. -/
theorem byte_msb (r : Nat) (h : r < 256) : (r &&& 128) >>> 7 = r / 128 := by
  revert h
  revert r
  decide

/-- Reading the register just written. -/
theorem updReg_same (r : Nat → Nat) (i v : Nat) : updReg r i v i = v % 256 := by
  simp [updReg]

/-- Reading a register other than the one written. -/
theorem updReg_other (r : Nat → Nat) (i v j : Nat) (h : j ≠ i) :
    updReg r i v j = r j := by
  simp [updReg, h]

/-- Reading the memory byte just written. -/
theorem updMem_same (m : Nat → Nat) (a v : Nat) : updMem m a v a = v % 256 := by
  simp [updMem]

/-- Reading a memory byte other than the one written. -/
theorem updMem_other (m : Nat → Nat) (a v b : Nat) (h : b ≠ a) :
    updMem m a v b = m b := by
  simp [updMem, h]

/-- The timer tick does not move the program counter. -/
theorem tick_pc (s : Chip8) : (tick s).pc = s.pc := by
  unfold tick
  dsimp only
  split <;> split <;> rfl

/-- The timer tick does not touch the registers. -/
theorem tick_registers (s : Chip8) : (tick s).registers = s.registers := by
  unfold tick
  dsimp only
  split <;> split <;> rfl

/-- If no key among 0 up to n-1 is pressed, the wait-key scan leaves the
registers alone and reports no key press. -/
theorem fx0aLoop_none (s : Chip8) (Vx : Nat) :
    ∀ n, (∀ i, i < n → s.keypad i = 0) → fx0aLoop s Vx n = (s.registers, false) := by
  intro n
  induction n with
  | zero => intro _; rfl
  | succ n ih =>
    intro h
    have hn : s.keypad n = 0 := h n (Nat.lt_succ_self n)
    simp only [fx0aLoop, ih (fun i hi => h i (Nat.lt_succ_of_lt hi)), hn]
    simp

/-- If key k is pressed and every later key scanned is not, the wait-key
scan reports a key press and leaves k (truncated to a byte) in Vx. -/
theorem fx0aLoop_high (s : Chip8) (Vx : Nat) :
    ∀ n k, k < n → s.keypad k ≠ 0 → (∀ j, j < n → k < j → s.keypad j = 0) →
      (fx0aLoop s Vx n).2 = true ∧ (fx0aLoop s Vx n).1 Vx = k % 256 := by
  intro n
  induction n with
  | zero => intro k hk; omega
  | succ n ih =>
    intro k hk hkp hhigh
    by_cases hkn : k = n
    · subst hkn
      simp only [fx0aLoop]
      rw [if_pos hkp]
      exact ⟨rfl, updReg_same _ _ _⟩
    · have hklt : k < n := by omega
      have hn : s.keypad n = 0 := hhigh n (Nat.lt_succ_self n) (by omega)
      have := ih k hklt hkp (fun j hj hkj => hhigh j (Nat.lt_succ_of_lt hj) hkj)
      simp only [fx0aLoop, hn]
      simpa using this

/-- The store-registers loop succeeds whenever the whole block fits in
memory, and writes register i (as a byte) at address index + i. -/
theorem fx55Loop_spec (s : Chip8) :
    ∀ n, s.index + n ≤ 4096 →
      ∃ m, fx55Loop s n = some m ∧ ∀ i, i < n → m (s.index + i) = s.registers i % 256 := by
  intro n
  induction n with
  | zero => intro _; exact ⟨s.memory, rfl, fun i hi => absurd hi (Nat.not_lt_zero i)⟩
  | succ n ih =>
    intro h
    obtain ⟨m, hm, hvals⟩ := ih (by omega)
    refine ⟨updMem m (s.index + n) (s.registers n), ?_, ?_⟩
    · simp only [fx55Loop, hm, Option.some_bind]
      rw [if_pos (show s.index + n < 4096 by omega)]
    · intro i hi
      by_cases hin : i = n
      · subst hin
        exact updMem_same m (s.index + i) (s.registers i)
      · have hlt : i < n := by omega
        rw [updMem_other m (s.index + n) (s.registers n) (s.index + i) (by omega)]
        exact hvals i hlt

/-- The load-registers loop succeeds whenever the whole block fits in
memory, and reads the byte at address index + i into register i. -/
theorem fx65Loop_spec (s : Chip8) :
    ∀ n, s.index + n ≤ 4096 →
      ∃ r, fx65Loop s n = some r ∧ ∀ i, i < n → r i = s.memory (s.index + i) % 256 := by
  intro n
  induction n with
  | zero => intro _; exact ⟨s.registers, rfl, fun i hi => absurd hi (Nat.not_lt_zero i)⟩
  | succ n ih =>
    intro h
    obtain ⟨r, hr, hvals⟩ := ih (by omega)
    refine ⟨updReg r n (s.memory (s.index + n)), ?_, ?_⟩
    · simp only [fx65Loop, hr, Option.some_bind]
      rw [if_pos (show s.index + n < 4096 by omega)]
    · intro i hi
      by_cases hin : i = n
      · subst hin
        exact updReg_same r i (s.memory (s.index + i))
      · have hlt : i < n := by omega
        rw [updReg_other r n (s.memory (s.index + n)) i (by omega)]
        exact hvals i hlt

/-- Claim C1: load-index is claimed to set the index register to the full
12-bit address field nnn for every nnn.  On opcode 0xA123 the code instead
sets index to 0x23: the extracted address passes through a uint8_t local,
which truncates the 12-bit field to its low byte. -/
theorem C1_load_index_truncated :
    (OP_Annn { zeroChip with opcode := 0xA123 }).index = 0x23 ∧ (0x23 : Nat) ≠ 0x123 :=
  ⟨rfl, by decide⟩

/-- Claim C2: draw-sprite is claimed to wrap each pixel individually past
the screen edges.  Drawing the 8 by 1 all-on sprite at x = 63, y = 31
instead runs off the end of the 2048-entry framebuffer: column 0 touches
linear index 2047, and column 1 computes 31 * 64 + 64 = 2048, an
out-of-bounds write, so the embedded draw fails instead of wrapping. -/
theorem C2_draw_edge_out_of_bounds :
    OP_Dxyn X2 = none ∧ X2.registers 0 % 64 = 63 ∧ X2.registers 1 % 32 = 31 :=
  ⟨rfl, rfl, rfl⟩

/-- Claim C3: decode is claimed to resolve every instruction word to a rule
with every dispatch-table lookup in bounds.  The sub-tables for families
0x0, 0x8 and 0xE have only 15 entries but are indexed with the full low
nibble, and the family-0xF table has 0x66 entries but is indexed with the
full low byte, so low nibble 0xF and low byte 0x66 overrun the tables;
in-bounds unassigned combinations do resolve to the no-op. -/
theorem C3_dispatch_table_overrun :
    decode 0x000F = none ∧ decode 0x800F = none ∧ decode 0xE00F = none ∧
    decode 0xF066 = none ∧ decode 0x8AB9 = some Handler.hNULL := by
  decide

/-- Claim C5 counterexample: jump-offset does not mask the computed target,
so with V0 = 0xFF and nnn = 0xFFF the program counter is assigned 0x10FE,
outside 0x000 - 0xFFF. -/
theorem C5_pc_exceeds_12_bits :
    (OP_Bnnn X5).pc = 0x10FE ∧ ¬ (OP_Bnnn X5).pc ≤ 0xFFF :=
  ⟨rfl, by decide⟩

/-- Claim C5 (amended): the address field nnn is masked to 12 bits when
extracted from the instruction word, and the plain jump target therefore
stays within 0x000 - 0xFFF, but the jump-offset target nnn + reg[0] is not
re-masked: it can reach up to 0x10FE. -/
theorem C5_address_masking (s : Chip8) (h0 : s.registers 0 < 256) :
    (s.opcode &&& 0x0FFF) < 4096 ∧
    (OP_1nnn s).pc = s.opcode &&& 0x0FFF ∧
    (OP_1nnn s).pc < 4096 ∧
    (OP_Bnnn s).pc = s.registers 0 + (s.opcode &&& 0x0FFF) ∧
    (OP_Bnnn s).pc ≤ 0x10FE := by
  have hmask : (s.opcode &&& 0x0FFF) ≤ 0x0FFF := Nat.and_le_right
  have h1 : (OP_1nnn s).pc = (s.opcode &&& 0x0FFF) % 65536 := rfl
  have hB : (OP_Bnnn s).pc = (s.registers 0 + (s.opcode &&& 0x0FFF)) % 65536 := rfl
  refine ⟨by omega, ?_, ?_, ?_, ?_⟩
  · rw [h1]; omega
  · rw [h1]; omega
  · rw [hB]; omega
  · rw [hB]; omega

/-- Claim C5 witness: the amended statement evaluated on the concrete
jump-offset state W5. -/
theorem C5_address_masking_witness :
    (W5.opcode &&& 0x0FFF) < 4096 ∧
    (OP_1nnn W5).pc = W5.opcode &&& 0x0FFF ∧
    (OP_1nnn W5).pc < 4096 ∧
    (OP_Bnnn W5).pc = W5.registers 0 + (W5.opcode &&& 0x0FFF) ∧
    (OP_Bnnn W5).pc ≤ 0x10FE :=
  C5_address_masking W5 (by decide)

/-- Claim C6 counterexample: shift-right with x = 15 and V15 = 3.  The
claim requires reg[15] to end as the least-significant bit of the original
value (1, which here agrees with 3 >> 1); the code writes the flag first
and then shifts the same register, leaving 0. -/
theorem C6_shift_flag_counterexample :
    (OP_8xy6 X6).registers 15 = 0 ∧ X6.registers 15 % 2 = 1 ∧
    (OP_8xy6 X6).registers 15 ≠ X6.registers 15 % 2 := by
  refine ⟨rfl, rfl, by decide⟩

/-- Claim C6 (amended): for every register index x other than 15,
shift-right sets reg[15] to the least-significant bit of the original
reg[x] and reg[x] to the original value shifted right by one, and
shift-left sets reg[15] to the most-significant bit and reg[x] to twice
the original modulo 256, the shifted-out bit being captured before reg[x]
is mutated; when x = 15 the flag write happens first and is then itself
shifted, so shift-right leaves reg[15] = 0 and shift-left leaves
reg[15] = twice the most-significant bit. -/
theorem C6_shift_semantics (s : Chip8) (x : Nat)
    (hx : x = (s.opcode &&& 0x0F00) >>> 8)
    (hb : ∀ i, s.registers i < 256) :
    (x ≠ 15 →
      (OP_8xy6 s).registers 15 = s.registers x % 2 ∧
      (OP_8xy6 s).registers x = s.registers x / 2 ∧
      (OP_8xyE s).registers 15 = s.registers x / 128 ∧
      (OP_8xyE s).registers x = s.registers x * 2 % 256) ∧
    (x = 15 →
      (OP_8xy6 s).registers 15 = 0 ∧
      (OP_8xyE s).registers 15 = s.registers 15 / 128 * 2) := by
  have h6 : ∀ j, (OP_8xy6 s).registers j =
      updReg (updReg s.registers 15 (s.registers x &&& 1)) x
        ((updReg s.registers 15 (s.registers x &&& 1)) x >>> 1) j := by
    intro j; rw [hx]; rfl
  have h8E : ∀ j, (OP_8xyE s).registers j =
      updReg (updReg s.registers 15 ((s.registers x &&& 128) >>> 7)) x
        ((updReg s.registers 15 ((s.registers x &&& 128) >>> 7)) x <<< 1) j := by
    intro j; rw [hx]; rfl
  constructor
  · intro hne
    have hne2 : (15 : Nat) ≠ x := fun h => hne h.symm
    refine ⟨?_, ?_, ?_, ?_⟩
    · have h := h6 15
      rw [updReg_other _ _ _ _ hne2, updReg_same] at h
      rw [h, and_one_eq_mod]
      omega
    · have h := h6 x
      rw [updReg_same, updReg_other _ _ _ _ hne] at h
      rw [h, shiftRight_one_eq_div]
      have := hb x
      omega
    · have h := h8E 15
      rw [updReg_other _ _ _ _ hne2, updReg_same] at h
      rw [h, byte_msb _ (hb x)]
      have := hb x
      omega
    · have h := h8E x
      rw [updReg_same, updReg_other _ _ _ _ hne] at h
      rw [h, shiftLeft_one_eq_mul]
  · intro heq
    subst heq
    refine ⟨?_, ?_⟩
    · have h := h6 15
      simp only [updReg_same] at h
      rw [h, and_one_eq_mod, shiftRight_one_eq_div]
      omega
    · have h := h8E 15
      simp only [updReg_same] at h
      rw [h, byte_msb _ (hb 15), shiftLeft_one_eq_mul]
      have := hb 15
      omega

/-- Claim C6 witness: the amended shift semantics evaluated on the
concrete state W6, whose shift register index is 2. -/
theorem C6_shift_semantics_witness :
    (OP_8xy6 W6).registers 15 = W6.registers 2 % 2 ∧
    (OP_8xy6 W6).registers 2 = W6.registers 2 / 2 ∧
    (OP_8xyE W6).registers 15 = W6.registers 2 / 128 ∧
    (OP_8xyE W6).registers 2 = W6.registers 2 * 2 % 256 :=
  (C6_shift_semantics W6 2 (by decide) (fun _ => (by decide : (7 : Nat) < 256))).1 (by decide)

/-- Claim C7 counterexample: add-reg with x = 15, y = 0, V15 = 200,
V0 = 100.  The sum 300 overflows, so the claim requires reg[15] = 1; the
code writes the carry flag and then overwrites the same register with the
low byte of the sum, leaving 44. -/
theorem C7_add_reg_flag_counterexample :
    (OP_8xy4 X7).registers 15 = 44 ∧ X7.registers 15 + X7.registers 0 > 255 ∧
    (OP_8xy4 X7).registers 15 ≠ 1 := by
  refine ⟨rfl, by decide, by decide⟩

/-- Claim C7 (amended): for every register pair (x, y) of byte values with
x other than 15, add-reg sets reg[15] to 1 exactly when the sum exceeds
255 and reg[x] to the sum modulo 256; when x = 15 the low byte of the sum
overwrites the just-written carry flag. -/
theorem C7_add_reg (s : Chip8) (x y : Nat)
    (hx : x = (s.opcode &&& 0x0F00) >>> 8)
    (hy : y = (s.opcode &&& 0x00F0) >>> 4)
    (ha : s.registers x < 256) (hb : s.registers y < 256) :
    (x ≠ 15 →
      ((OP_8xy4 s).registers 15 = if s.registers x + s.registers y > 255 then 1 else 0) ∧
      (OP_8xy4 s).registers x = (s.registers x + s.registers y) % 256) ∧
    (x = 15 →
      (OP_8xy4 s).registers 15 = (s.registers x + s.registers y) % 256) := by
  have hsum : (s.registers x + s.registers y) % 65536 = s.registers x + s.registers y := by
    omega
  have h4 : ∀ j, (OP_8xy4 s).registers j =
      updReg
        (updReg s.registers 15
          (if (s.registers x + s.registers y) % 65536 > 255 then 1 else 0))
        x (((s.registers x + s.registers y) % 65536) &&& 255) j := by
    intro j; rw [hx, hy]; rfl
  constructor
  · intro hne
    have hne2 : (15 : Nat) ≠ x := fun h => hne h.symm
    refine ⟨?_, ?_⟩
    · have h := h4 15
      rw [updReg_other _ _ _ _ hne2, updReg_same, hsum] at h
      rw [h]
      by_cases hc : s.registers x + s.registers y > 255
      · rw [if_pos hc]
      · rw [if_neg hc]
    · have h := h4 x
      rw [updReg_same, hsum, and_255_eq_mod] at h
      rw [h]
      omega
  · intro heq
    subst heq
    have h := h4 15
    rw [updReg_same, hsum, and_255_eq_mod] at h
    rw [h]
    omega

/-- Claim C7 witness: the amended add-reg semantics evaluated on the
concrete state W7, which adds V2 into V1 with both equal to 100. -/
theorem C7_add_reg_witness :
    ((OP_8xy4 W7).registers 15 = if W7.registers 1 + W7.registers 2 > 255 then 1 else 0) ∧
    (OP_8xy4 W7).registers 1 = (W7.registers 1 + W7.registers 2) % 256 :=
  (C7_add_reg W7 1 2 (by decide) (by decide) (by decide) (by decide)).1 (by decide)

/-- Claim C8: for every register index x and every index value for which
the addressed bytes index .. index + x lie in memory, store-registers
followed by load-registers into freshly zeroed registers restores the
original byte values of registers 0 through x exactly. -/
theorem C8_store_load_round_trip (s : Chip8) (x : Nat)
    (hx : x = (s.opcode &&& 0x0F00) >>> 8)
    (hidx : s.index + x < 4096)
    (hb : ∀ i, i ≤ x → s.registers i < 256) :
    ∃ t, OP_Fx55 s = some t ∧
      ∃ u, OP_Fx65 (zeroRegsThrough x t) = some u ∧
        ∀ i, i ≤ x → u.registers i = s.registers i := by
  obtain ⟨m, hm, hmv⟩ := fx55Loop_spec s (x + 1) (by omega)
  have ht0 : OP_Fx55 s = (fx55Loop s (x + 1)).map fun mm => { s with memory := mm } := by
    rw [hx]
    rfl
  rw [hm] at ht0
  have ht : OP_Fx55 s = some { s with memory := m } := ht0
  refine ⟨{ s with memory := m }, ht, ?_⟩
  obtain ⟨r, hr, hrv⟩ :=
    fx65Loop_spec (zeroRegsThrough x { s with memory := m })
      (x + 1) (show s.index + (x + 1) ≤ 4096 by omega)
  have hu0 : OP_Fx65 (zeroRegsThrough x { s with memory := m }) =
      (fx65Loop (zeroRegsThrough x { s with memory := m }) (x + 1)).map
        fun rr => { zeroRegsThrough x { s with memory := m } with registers := rr } := by
    rw [hx]
    rfl
  rw [hr] at hu0
  have hu : OP_Fx65 (zeroRegsThrough x { s with memory := m }) =
      some { zeroRegsThrough x { s with memory := m } with registers := r } := hu0
  refine ⟨_, hu, ?_⟩
  intro i hi
  have h1 : r i = m (s.index + i) % 256 := hrv i (by omega)
  have h2 : m (s.index + i) = s.registers i % 256 := hmv i (by omega)
  show r i = s.registers i
  rw [h1, h2]
  have := hb i hi
  omega

/-- Claim C8 witness: the round trip evaluated on the concrete state W8
with x = 3. -/
theorem C8_store_load_round_trip_witness :
    ∃ t, OP_Fx55 W8 = some t ∧
      ∃ u, OP_Fx65 (zeroRegsThrough 3 t) = some u ∧
        ∀ i, i ≤ 3 → u.registers i = W8.registers i :=
  C8_store_load_round_trip W8 3 (by decide) (by decide) (by decide)

/-- Claim C9: store-bcd writes the hundreds digit of the byte in Vx at
memory[index], the tens digit at memory[index + 1] and the ones digit at
memory[index + 2], whenever those three addresses lie in memory. -/
theorem C9_store_bcd (s : Chip8) (x v : Nat)
    (hx : x = (s.opcode &&& 0x0F00) >>> 8)
    (hv : v = s.registers x)
    (hvb : v < 256)
    (hidx : s.index + 2 < 4096) :
    ∃ t, OP_Fx33 s = some t ∧
      t.memory s.index = v / 100 ∧
      t.memory (s.index + 1) = v / 10 % 10 ∧
      t.memory (s.index + 2) = v % 10 := by
  have ht0 : OP_Fx33 s = (if s.index + 2 < 4096 then
      some { s with
              memory := updMem
                          (updMem (updMem s.memory (s.index + 2) (s.registers x % 10))
                            (s.index + 1) (s.registers x / 10 % 10))
                          s.index (s.registers x / 10 / 10 % 10) }
      else none) := by
    rw [hx]
    rfl
  rw [if_pos hidx, ← hv] at ht0
  refine ⟨_, ht0, ?_, ?_, ?_⟩
  · show updMem (updMem (updMem s.memory (s.index + 2) (v % 10))
        (s.index + 1) (v / 10 % 10)) s.index (v / 10 / 10 % 10) s.index = v / 100
    rw [updMem_same]
    omega
  · show updMem (updMem (updMem s.memory (s.index + 2) (v % 10))
        (s.index + 1) (v / 10 % 10)) s.index (v / 10 / 10 % 10) (s.index + 1) = v / 10 % 10
    rw [updMem_other _ _ _ _ (by omega), updMem_same]
    omega
  · show updMem (updMem (updMem s.memory (s.index + 2) (v % 10))
        (s.index + 1) (v / 10 % 10)) s.index (v / 10 / 10 % 10) (s.index + 2) = v % 10
    rw [updMem_other _ _ _ _ (by omega), updMem_other _ _ _ _ (by omega), updMem_same]
    omega

/-- Claim C9 witness: store-bcd of 137 writes 1, 3, 7 at memory[index],
memory[index + 1], memory[index + 2] on the concrete state W9. -/
theorem C9_store_bcd_witness :
    ∃ t, OP_Fx33 W9 = some t ∧
      t.memory W9.index = 137 / 100 ∧
      t.memory (W9.index + 1) = 137 / 10 % 10 ∧
      t.memory (W9.index + 2) = 137 % 10 :=
  C9_store_bcd W9 0 137 (by decide) (by decide) (by decide) (by decide)

/-- Claim C10: whenever store-registers and load-registers complete, both
leave the index register unchanged (it is not advanced by x + 1); in
addition store-registers leaves every register unchanged and
load-registers leaves every memory byte unchanged. -/
theorem C10_transfer_frame (s t u : Chip8)
    (h1 : OP_Fx55 s = some t) (h2 : OP_Fx65 s = some u) :
    t.index = s.index ∧ (∀ i, t.registers i = s.registers i) ∧
    u.index = s.index ∧ (∀ a, u.memory a = s.memory a) := by
  have h1e : (fx55Loop s (((s.opcode &&& 0x0F00) >>> 8) + 1)).map
      (fun m => { s with memory := m }) = some t := h1
  obtain ⟨m, _, hmt⟩ := Option.map_eq_some'.mp h1e
  have h2e : (fx65Loop s (((s.opcode &&& 0x0F00) >>> 8) + 1)).map
      (fun r => { s with registers := r }) = some u := h2
  obtain ⟨r, _, hru⟩ := Option.map_eq_some'.mp h2e
  subst hmt
  subst hru
  exact ⟨rfl, fun _ => rfl, rfl, fun _ => rfl⟩

/-- Claim C10 witness: the frame conditions evaluated on the concrete
state W10 with x = 0. -/
theorem C10_transfer_frame_witness :
    T55.index = W10.index ∧ (∀ i, T55.registers i = W10.registers i) ∧
    T65.index = W10.index ∧ (∀ a, T65.memory a = W10.memory a) :=
  C10_transfer_frame W10 T55 T65 rfl rfl

/-- Decoding a fetched wait-key instruction word: the word built from high
byte 0xF0 + x and low byte 0x0A selects the wait-key handler, and its
x-field extraction recovers x. -/
theorem fx0a_decode (x : Nat) (hx : x < 16) :
    decode (((240 + x) <<< 8 ||| 10) % 65536) = some Handler.hFx0A ∧
    ((((240 + x) <<< 8 ||| 10) % 65536) &&& 0x0F00) >>> 8 = x := by
  interval_cases x <;> exact ⟨by decide, by decide⟩

/-- When no key is pressed, wait-key only rewinds the program counter
by 2 (modulo 2^16). -/
theorem fx0a_no_key (s : Chip8) (x : Nat)
    (hvx : (s.opcode &&& 0x0F00) >>> 8 = x)
    (h : ∀ i, i < 16 → s.keypad i = 0) :
    OP_Fx0A s = { s with pc := (s.pc + 65534) % 65536 } := by
  have h0 : OP_Fx0A s =
      (if (fx0aLoop s x 16).2 then { s with registers := (fx0aLoop s x 16).1 }
       else { s with registers := (fx0aLoop s x 16).1, pc := (s.pc + 65534) % 65536 }) := by
    rw [← hvx]
    rfl
  rw [fx0aLoop_none s x 16 h] at h0
  simpa using h0

/-- When key k is pressed and no higher-numbered key is, wait-key leaves
the program counter alone and stores k in Vx. -/
theorem fx0a_key (s : Chip8) (x k : Nat)
    (hvx : (s.opcode &&& 0x0F00) >>> 8 = x)
    (hk : k < 16) (hkp : s.keypad k ≠ 0)
    (hhigh : ∀ j, j < 16 → k < j → s.keypad j = 0) :
    (OP_Fx0A s).pc = s.pc ∧ (OP_Fx0A s).registers x = k := by
  obtain ⟨h2, h1⟩ := fx0aLoop_high s x 16 k hk hkp hhigh
  have h0 : OP_Fx0A s =
      (if (fx0aLoop s x 16).2 then { s with registers := (fx0aLoop s x 16).1 }
       else { s with registers := (fx0aLoop s x 16).1, pc := (s.pc + 65534) % 65536 }) := by
    rw [← hvx]
    rfl
  rw [if_pos h2] at h0
  constructor
  · rw [h0]
  · rw [h0]
    show (fx0aLoop s x 16).1 x = k
    rw [h1]
    omega

/-- Claim C4 (amended): for every machine state whose next instruction is
wait-key, if no key is pressed the program counter is rewound by 2, so it
never advances across repeated cycles; on a cycle in which at least one
key is pressed the program counter advances exactly once and reg[x] is set
to the highest pressed key index: the 0 - 15 scan does not stop at the
first pressed key, so the last detected press overwrites the earlier
ones. -/
theorem C4_wait_key (s : Chip8) (x : Nat) (hx : x < 16)
    (hpc : s.pc + 1 < 4096)
    (hhi : s.memory s.pc = 240 + x)
    (hlo : s.memory (s.pc + 1) = 10) :
    ((∀ i, i < 16 → s.keypad i = 0) → ∃ t, s.Cycle = some t ∧ t.pc = s.pc) ∧
    (∀ k, k < 16 → s.keypad k ≠ 0 → (∀ j, j < 16 → k < j → s.keypad j = 0) →
      ∃ t, s.Cycle = some t ∧ t.pc = s.pc + 2 ∧ t.registers x = k) := by
  obtain ⟨hdec, hvx⟩ := fx0a_decode x hx
  have hcyc0 : s.Cycle = (if s.pc + 1 < 4096 then
      ((decode (((s.memory s.pc <<< 8) ||| s.memory (s.pc + 1)) % 65536)).bind
        fun h => execute h { s with
          opcode := ((s.memory s.pc <<< 8) ||| s.memory (s.pc + 1)) % 65536,
          pc := (s.pc + 2) % 65536 }).map tick
    else none) := rfl
  rw [if_pos hpc, hhi, hlo, hdec] at hcyc0
  have hcyc1 : s.Cycle = some (tick (OP_Fx0A { s with
      opcode := ((240 + x) <<< 8 ||| 10) % 65536,
      pc := (s.pc + 2) % 65536 })) := hcyc0
  have hvx1 : (({ s with
      opcode := ((240 + x) <<< 8 ||| 10) % 65536,
      pc := (s.pc + 2) % 65536 } : Chip8).opcode &&& 0x0F00) >>> 8 = x := hvx
  constructor
  · intro h
    refine ⟨_, hcyc1, ?_⟩
    rw [tick_pc]
    rw [fx0a_no_key _ x hvx1 (fun i hi => h i hi)]
    show ((s.pc + 2) % 65536 + 65534) % 65536 = s.pc
    omega
  · intro k hk hkp hhigh
    obtain ⟨hp, hr⟩ := fx0a_key _ x k hvx1 hk hkp hhigh
    refine ⟨_, hcyc1, ?_, ?_⟩
    · rw [tick_pc, hp]
      show (s.pc + 2) % 65536 = s.pc + 2
      omega
    · rw [tick_registers]
      exact hr

/-- Claim C4 counterexample: with keys 2 and 5 both pressed, the cycle
executing wait-key into V0 stores 5, the highest pressed key, not 2, the
lowest / first-detected one. -/
theorem C4_wait_key_counterexample :
    (Chip8.Cycle X4).map (fun t => t.registers 0) = some 5 ∧
    (Chip8.Cycle X4).map (fun t => t.registers 0) ≠ some 2 ∧
    X4.keypad 2 ≠ 0 := by
  refine ⟨rfl, by decide, by decide⟩

/-- Claim C4 witness: the amended wait-key behaviour evaluated on the
concrete state W4, whose only pressed key is 5 and whose wait-key target
register is V3. -/
theorem C4_wait_key_witness :
    ∃ t, Chip8.Cycle W4 = some t ∧ t.pc = W4.pc + 2 ∧ t.registers 3 = 5 :=
  (C4_wait_key W4 3 (by decide) (by decide) (by decide) (by decide)).2
    5 (by decide) (by decide) (by decide)
